import Mathlib

set_option maxRecDepth 4000

/-!
Verification development for the texta repository.

The frontend utility routines of the repository are embedded shallowly:
JavaScript strings become `String` / `List Char`, fallible functions return
`Except`, and the external HTTP analyze call of the batch runner becomes an
explicit oracle function passed as an argument.  Machine floating point
appears only in `analyzeText`, whose division is modelled over `ℚ` with
`Option`: `none` stands for the non-finite double a zero divisor produces.
-/

namespace Texta

/-- Whitespace set used to model the JavaScript trim and the regex class
backslash-s; restricted to the ASCII whitespace characters, which is all the
repository ever feeds in. -/
def isWsChar (c : Char) : Bool :=
  c = ' ' || c = '\t' || c = '\n' || c = '\r' || c = '\x0b' || c = '\x0c'

/-- Models JavaScript trim: drop whitespace from both ends. -/
def trimChars (l : List Char) : List Char :=
  ((l.dropWhile isWsChar).reverse.dropWhile isWsChar).reverse

/-- Word character of JavaScript regexes (backslash-w): ASCII letters, digits
and the underscore. -/
def isWordChar (c : Char) : Bool := c.isAlphanum || c = '_'

/-- Models String.prototype.toLowerCase character by character. -/
def toLowerChars (l : List Char) : List Char := l.map Char.toLower

/-- Models splitting on a regex consisting of one repeated character class
(such as the non-word split in analyzeSentiment, the whitespace split and the
sentence split in analyzeText).  `inSep = true` means the scanner is inside a
separator run, in which case `cur` is empty. -/
def splitSepGo (sep : Char → Bool) (inSep : Bool) (cur : List Char) :
    List Char → List (List Char)
  | [] => [cur.reverse]
  | x :: xs =>
    if sep x then
      if inSep then splitSepGo sep true cur xs
      else cur.reverse :: splitSepGo sep true [] xs
    else splitSepGo sep false (x :: cur) xs

/-- JavaScript split on a repeated character class: maximal separator runs cut
the string, an empty string splits to one empty field, and leading or trailing
separators yield empty boundary fields, exactly as the JS regex split does. -/
def splitSep (sep : Char → Bool) (l : List Char) : List (List Char) :=
  splitSepGo sep false [] l

/-- The fixed positive word list of analyzeSentiment. -/
def positiveWords : List String :=
  ["good", "great", "excellent", "amazing", "wonderful", "fantastic",
   "awesome", "love", "like", "happy", "pleased", "satisfied", "perfect",
   "brilliant", "outstanding", "superb", "marvelous", "terrific", "fabulous",
   "incredible"]

/-- The fixed negative word list of analyzeSentiment. -/
def negativeWords : List String :=
  ["bad", "terrible", "awful", "horrible", "hate", "dislike", "sad", "angry",
   "frustrated", "disappointed", "disgusted", "annoyed", "furious", "upset",
   "depressed", "miserable", "pathetic", "useless", "worthless", "dreadful"]

def positiveWordsChars : List (List Char) := positiveWords.map String.data

def negativeWordsChars : List (List Char) := negativeWords.map String.data

/-- The token list of analyzeSentiment: text.toLowerCase().split(non-word). -/
def sentimentTokens (text : String) : List (List Char) :=
  splitSep (fun c => !(isWordChar c)) (toLowerChars text.data)

/-- positiveScore of analyzeSentiment: tokens found in the positive list. -/
def posScore (text : String) : Nat :=
  ((sentimentTokens text).filter (fun w => positiveWordsChars.contains w)).length

/-- negativeScore of analyzeSentiment: tokens found in the negative list. -/
def negScore (text : String) : Nat :=
  ((sentimentTokens text).filter (fun w => negativeWordsChars.contains w)).length

structure SentimentResult where
  label : String
  confidence : Nat
  method : String
deriving DecidableEq

/-- Math.round of the quotient a over b, for naturals with positive b: round
half away from zero, which for nonnegative values is floor of the quotient
plus one half. -/
def jsRound (a b : Nat) : Nat := (2 * a + b) / (2 * b)

/-- The branch structure of analyzeSentiment once both scores are counted:
total zero gives NEUTRAL at 50, a strict majority gives that label with
Math.max of the rounded percentage and 60, a tie gives NEUTRAL at 50. -/
def sentimentFromCounts (p n : Nat) : SentimentResult :=
  if p + n = 0 then ⟨"NEUTRAL", 50, "Rule-based Analysis"⟩
  else if p > n then
    ⟨"POSITIVE", max (jsRound (100 * p) (p + n)) 60, "Rule-based Analysis"⟩
  else if n > p then
    ⟨"NEGATIVE", max (jsRound (100 * n) (p + n)) 60, "Rule-based Analysis"⟩
  else ⟨"NEUTRAL", 50, "Rule-based Analysis"⟩

/-- analyzeSentiment of textAnalysisService.js: count keyword matches over the
lowercased non-word-split tokens, then classify. -/
def analyzeSentiment (text : String) : SentimentResult :=
  sentimentFromCounts (posScore text) (negScore text)

/-- Written from the words of the specification for the refinement claim about
analyzeSentiment: NEUTRAL at 50 when the counts are both zero or equal,
otherwise the majority label with confidence max of 60 and the rounded
percentage of the majority count over the total. -/
def sentimentSpecFromCounts (p n : Nat) : SentimentResult :=
  if (p = 0 ∧ n = 0) ∨ p = n then ⟨"NEUTRAL", 50, "Rule-based Analysis"⟩
  else
    ⟨if p > n then "POSITIVE" else "NEGATIVE",
     max 60 (jsRound (100 * max p n) (max p n + min p n)),
     "Rule-based Analysis"⟩

/-- The specification wording of the heuristic, over the same token counts. -/
def analyzeSentimentSpec (text : String) : SentimentResult :=
  sentimentSpecFromCounts (posScore text) (negScore text)

/-- Sentence delimiters of analyzeText. -/
def isSentenceDelim (c : Char) : Bool := c = '.' || c = '!' || c = '?'

/-- Index of the last newline of a list, if any. -/
def lastNewlineIdx : List Char → Option Nat
  | [] => none
  | c :: rest =>
    match lastNewlineIdx rest with
    | some i => some (i + 1)
    | none => if c = '\n' then some 0 else none

/-- Length of the greedy match of the paragraph separator regex (a newline,
whitespace, a newline) at the front of the list, if it matches: one newline,
then the longest whitespace run ending in a newline. -/
def paraSepLen : List Char → Option Nat
  | '\n' :: rest =>
    match lastNewlineIdx (rest.takeWhile isWsChar) with
    | some i => some (i + 2)
    | none => none
  | _ => none

/-- Fuelled left-to-right scan cutting at each leftmost paragraph separator
match; the fuel is the input length, which always suffices because a match
consumes at least two characters. -/
def splitParaAux : Nat → List Char → List Char → List (List Char)
  | _, cur, [] => [cur.reverse]
  | 0, cur, rest => [cur.reverse ++ rest]
  | fuel + 1, cur, x :: xs =>
    match paraSepLen (x :: xs) with
    | some k => cur.reverse :: splitParaAux fuel [] (xs.drop (k - 1))
    | none => splitParaAux fuel (x :: cur) xs

/-- Models the paragraph split of analyzeText. -/
def splitParagraphs (l : List Char) : List (List Char) :=
  splitParaAux l.length [] l

structure TextStats where
  wordCount : Nat
  characterCount : Nat
  characterCountNoSpaces : Nat
  sentenceCount : Nat
  paragraphCount : Nat
  averageWordsPerSentence : Option ℚ
  sentiment : SentimentResult
deriving DecidableEq

/-- Math.round of q times ten, divided by ten, for nonnegative q. -/
def jsRound10 (q : ℚ) : ℚ := ((⌊q * 10 + 1 / 2⌋ : ℤ) : ℚ) / 10

/-- analyzeText of textAnalysisService.js.  The division producing
averageWordsPerSentence is modelled with Option: `none` stands for the
non-finite double JavaScript produces when sentenceCount is zero. -/
def analyzeText (text : String) : Except String TextStats :=
  if trimChars text.data = [] then
    Except.error ("Please enter some text to analyze")
  else
    let words := splitSep isWsChar (trimChars text.data)
    let sentenceCount :=
      ((splitSep isSentenceDelim text.data).filter
        (fun s => !(trimChars s).isEmpty)).length
    let paragraphCount :=
      ((splitParagraphs text.data).filter
        (fun p => !(trimChars p).isEmpty)).length
    Except.ok
      ⟨words.length,
       text.data.length,
       (text.data.filter (fun c => !(isWsChar c))).length,
       sentenceCount,
       paragraphCount,
       if sentenceCount = 0 then none
       else some (jsRound10 ((words.length : ℚ) / (sentenceCount : ℚ))),
       analyzeSentiment text⟩

/-- Helper of the newline and comma splits of parseCSV: first field and the
remaining fields.  Mirrors JavaScript split on a single character, where an
empty input gives one empty field and a trailing separator a trailing empty
field. -/
def splitOnCharP (c : Char) : List Char → List Char × List (List Char)
  | [] => ([], [])
  | x :: xs =>
    if x = c then ([], (splitOnCharP c xs).1 :: (splitOnCharP c xs).2)
    else (x :: (splitOnCharP c xs).1, (splitOnCharP c xs).2)

/-- JavaScript split on a single character. -/
def splitOnChar (c : Char) (l : List Char) : List (List Char) :=
  (splitOnCharP c l).1 :: (splitOnCharP c l).2

/-- Models the global replace of double quotes by the empty string. -/
def stripQuotes : List Char → List Char
  | [] => []
  | c :: rest => if c = '"' then stripQuotes rest else c :: stripQuotes rest

/-- The cell cleaning of parseCSV: trim, then drop every double quote. -/
def cleanCell (l : List Char) : List Char := stripQuotes (trimChars l)

/-- The fixed header keyword list of parseCSV, used both for the substring
sniff of the first line and for the exact column-name match. -/
def headerKeywords : List (List Char) :=
  (["text", "content", "message", "sentence", "comment", "review",
    "feedback", "data"]).map String.data

def isPrefixChars : List Char → List Char → Bool
  | [], _ => true
  | _ :: _, [] => false
  | p :: ps, x :: xs => p = x && isPrefixChars ps xs

/-- Substring containment, modelling String.prototype.includes. -/
def containsSub : List Char → List Char → Bool
  | [], pat => isPrefixChars pat []
  | x :: t, pat => isPrefixChars pat (x :: t) || containsSub t pat

/-- The header sniff of parseCSV: some keyword occurs somewhere in the
lowercased first line. -/
def hasHeaderIndicatorsIn (line : List Char) : Bool :=
  headerKeywords.any (fun kw => containsSub (toLowerChars line) kw)

/-- The exact case-insensitive column-name match of parseCSV. -/
def isTextHeader (h : List Char) : Bool :=
  headerKeywords.contains (toLowerChars h)

/-- Header parsing of parseCSV: split the first line on commas and clean
each cell. -/
def parseHeaders (line : List Char) : List (List Char) :=
  (splitOnChar ',' line).map cleanCell

/-- Models Array.prototype.findIndex over the header names, as an Option. -/
def findTextColumn : List (List Char) → Option Nat
  | [] => none
  | h :: t => if isTextHeader h then some 0
    else (findTextColumn t).map (fun i => i + 1)

/-- Indexing as in JavaScript: out of range reads give undefined, modelled
as none. -/
def listNth {α : Type} : List α → Nat → Option α
  | [], _ => none
  | x :: _, 0 => some x
  | _ :: t, n + 1 => listNth t n

/-- The per-row extraction of parseCSV: skip blank rows, split on commas,
clean the cells, and keep the cell at the selected index when it exists and
is non-empty. -/
def rowCell (idx : Nat) (line : List Char) : Option (List Char) :=
  if trimChars line = [] then none
  else
    match listNth ((splitOnChar ',' line).map cleanCell) idx with
    | none => none
    | some v => if v = [] then none else some v

/-- The data-row loop of parseCSV collecting the texts list. -/
def extractTexts (idx : Nat) (dls : List (List Char)) : List (List Char) :=
  dls.filterMap (rowCell idx)

structure CsvBatch where
  headers : List String
  texts : List String
  totalRows : Nat
  hasHeaders : Bool
  warning : Option String
deriving DecidableEq

/-- A line is blank when its trim is empty; such lines are filtered out. -/
def isBlank (l : List Char) : Bool := (trimChars l).isEmpty

/-- The non-blank lines of the file: split on newlines, drop blank lines. -/
def filteredLines (s : String) : List (List Char) :=
  (splitOnChar '\n' s.data).filter (fun l => !(isBlank l))

/-- The headers parseCSV uses in the multi-line case: the parsed first line
when the sniff succeeds, the single name text otherwise. -/
def csvHeadersOf (firstLine : List Char) : List (List Char) :=
  if hasHeaderIndicatorsIn firstLine then parseHeaders firstLine
  else [("text").data]

/-- The data lines parseCSV iterates over: the first line is consumed as a
header row exactly when the sniff succeeds. -/
def csvDataOf (firstLine l2 : List Char) (rest : List (List Char)) :
    List (List Char) :=
  if hasHeaderIndicatorsIn firstLine then l2 :: rest
  else firstLine :: l2 :: rest

/-- The effective text column index: the exact match when found, otherwise
the fallback column zero. -/
def csvSelIdxOf (firstLine : List Char) : Nat :=
  (findTextColumn (csvHeadersOf firstLine)).getD 0

/-- parseCSV of the frontend: split on newlines, drop blank lines, fail on
zero lines, treat a single line as one untitled text row, otherwise sniff
headers, pick the text column (falling back to column zero with a warning
when the sniff succeeded but no exact column-name match exists) and collect
the non-empty cleaned cells of the data rows. -/
def parseCSV (csvContent : String) : Except String CsvBatch :=
  match filteredLines csvContent with
  | [] => Except.error ("CSV file is empty")
  | [l] => Except.ok ⟨["text"], [String.mk (trimChars l)], 1, false, none⟩
  | firstLine :: l2 :: rest =>
    let headers := csvHeadersOf firstLine
    let texts :=
      extractTexts (csvSelIdxOf firstLine) (csvDataOf firstLine l2 rest)
    Except.ok ⟨headers.map String.mk, texts.map String.mk, texts.length,
      hasHeaderIndicatorsIn firstLine,
      match findTextColumn headers with
      | none => some ("No text column found, using first column as text")
      | some _ => none⟩

/-- The result record the batch loop stores per row.  Successful rows carry
the response of the analyze call; failed rows carry the placeholder the loop
builds.  Score fields a response lacks are modelled as zero, matching the
or-zero defaulting every consumer applies. -/
structure BatchItem where
  text : String
  sentiment : String
  confidence : ℚ
  model_name : String
  joy_score : ℚ
  sadness_score : ℚ
  anger_score : ℚ
  fear_score : ℚ
  formal_score : ℚ
  casual_score : ℚ
  emotional_score : ℚ
  objective_score : ℚ
  error : Option String
deriving DecidableEq

/-- The placeholder pushed by handleAnalyzeCSV when an analyze call throws:
the row text, sentiment ERROR, confidence zero, the selected model and the
error message. -/
def errorItem (t msg model : String) : BatchItem :=
  ⟨t, "ERROR", 0, model, 0, 0, 0, 0, 0, 0, 0, 0, some msg⟩

/-- One iteration of the batch loop: the response on success, the placeholder
on failure.  The analyze call is the external HTTP request, modelled as an
oracle indexed by the call position. -/
def rowOutcome (api : Nat → String → Except String BatchItem)
    (model : String) (i : Nat) (t : String) : BatchItem :=
  match api i t with
  | Except.ok r => r
  | Except.error msg => errorItem t msg model

/-- The sequential for-loop of handleAnalyzeCSV over the texts. -/
def runCsvLoop (api : Nat → String → Except String BatchItem)
    (model : String) : Nat → List String → List BatchItem
  | _, [] => []
  | i, t :: rest => rowOutcome api model i t :: runCsvLoop api model (i + 1) rest

/-- handleAnalyzeCSV: returns early, producing no result list, when no CSV is
loaded or its texts list is empty; otherwise runs the loop over every text. -/
def handleAnalyzeCSV (api : Nat → String → Except String BatchItem)
    (model : String) (csvData : Option CsvBatch) :
    Option (List BatchItem) :=
  match csvData with
  | none => none
  | some d =>
    if d.texts.length = 0 then none
    else some (runCsvLoop api model 0 d.texts)

def digitChar (d : Nat) : Char := Char.ofNat (48 + d)

/-- Decimal digits of a natural number, most significant first; the fuel is
one more than the number, which always suffices. -/
def natToDigits : Nat → Nat → List Char
  | 0, _ => []
  | fuel + 1, n =>
    if n < 10 then [digitChar n]
    else natToDigits fuel (n / 10) ++ [digitChar (n % 10)]

def natChars (n : Nat) : List Char := natToDigits (n + 1) n

/-- Models the JavaScript String conversion of the stored rational scores.
The digit rendering differs from double formatting (a fraction prints as
numerator slash denominator), but it consists only of digits, a minus sign
and a slash, which is all the produced CSV shape depends on. -/
def ratChars (q : ℚ) : List Char :=
  (if q < 0 then ['-'] else []) ++ natChars q.num.natAbs ++
    (if q.den = 1 then [] else '/' :: natChars q.den)

/-- Models the global replace of a double quote by two double quotes. -/
def escapeQuotes : List Char → List Char
  | [] => []
  | c :: rest =>
    if c = '"' then '"' :: '"' :: escapeQuotes rest
    else c :: escapeQuotes rest

/-- The cell quoting of generateResultsCSV: escape quotes and wrap. -/
def quoteCell (l : List Char) : List Char :=
  '"' :: (escapeQuotes l ++ ['"'])

/-- Models Array.prototype.join with a one-character separator. -/
def joinWith (c : Char) : List (List Char) → List Char
  | [] => []
  | [l] => l
  | l :: l2 :: ls => l ++ c :: joinWith c (l2 :: ls)

/-- The fixed header row of generateResultsCSV. -/
def headerCellsCSV : List (List Char) :=
  (["Text", "Sentiment", "Confidence", "Model", "Joy Score", "Sadness Score",
    "Anger Score", "Fear Score", "Formal Score", "Casual Score",
    "Emotional Score", "Objective Score"]).map String.data

/-- The twelve cells generateResultsCSV writes per result, with the or-else
defaulting of the source: empty sentiment becomes ERROR, empty model name
becomes unknown, numbers are stringified. -/
def resultCells (r : BatchItem) : List (List Char) :=
  [r.text.data,
   (if r.sentiment = "" then "ERROR" else r.sentiment).data,
   ratChars r.confidence,
   (if r.model_name = "" then "unknown" else r.model_name).data,
   ratChars r.joy_score, ratChars r.sadness_score, ratChars r.anger_score,
   ratChars r.fear_score, ratChars r.formal_score, ratChars r.casual_score,
   ratChars r.emotional_score, ratChars r.objective_score]

/-- One CSV line: quote every cell and join on commas. -/
def rowLine (cells : List (List Char)) : List Char :=
  joinWith ',' (cells.map quoteCell)

/-- generateResultsCSV: the header row followed by one row per result, rows
joined on newlines. -/
def generateResultsCSV (results : List BatchItem) : String :=
  String.mk (joinWith '\n'
    ((headerCellsCSV :: results.map resultCells).map rowLine))

/-- Concrete oracle for the batch witness: the call at position one fails,
every other call succeeds. -/
def apiW : Nat → String → Except String BatchItem :=
  fun i t =>
    if i = 1 then Except.error ("boom")
    else Except.ok ⟨t, "POSITIVE", 9 / 10, "m", 0, 0, 0, 0, 0, 0, 0, 0, none⟩

/-- Concrete loaded CSV for the batch witness. -/
def batchW : CsvBatch := ⟨["text"], ["a", "b", "c"], 3, false, none⟩

/-- Concrete result whose text contains a comma, for the round-trip
counterexample. -/
def rowCexC8 : BatchItem :=
  ⟨"a,b", "POSITIVE", 0, "m", 0, 0, 0, 0, 0, 0, 0, 0, none⟩

/-- Concrete well-behaved result for the round-trip witness. -/
def rowW : BatchItem :=
  ⟨"hello world", "POSITIVE", 0, "m", 0, 0, 0, 0, 0, 0, 0, 0, none⟩

instance {ε α : Type} [DecidableEq ε] [DecidableEq α] :
    DecidableEq (Except ε α) := fun x y =>
  match x, y with
  | Except.error a, Except.error b =>
    if h : a = b then isTrue (congrArg Except.error h)
    else isFalse (fun hh => h (Except.error.inj hh))
  | Except.error _, Except.ok _ => isFalse (fun hh => Except.noConfusion hh)
  | Except.ok _, Except.error _ => isFalse (fun hh => Except.noConfusion hh)
  | Except.ok a, Except.ok b =>
    if h : a = b then isTrue (congrArg Except.ok h)
    else isFalse (fun hh => h (Except.ok.inj hh))

-- ### Theorems

/-- Rounded percentages never exceed one hundred. -/
theorem jsRound_le_100 (p t : Nat) (hp : p ≤ t) (ht : 0 < t) :
    jsRound (100 * p) t ≤ 100 := by
  unfold jsRound
  have h2t : 0 < 2 * t := by omega
  have h1 : 2 * (100 * p) + t ≤ 2 * t * 100 + t := by omega
  have h2 : (2 * t * 100 + t) / (2 * t) = 100 + t / (2 * t) :=
    Nat.mul_add_div h2t 100 t
  have h3 : t / (2 * t) = 0 := Nat.div_eq_of_lt (by omega)
  calc (2 * (100 * p) + t) / (2 * t)
      ≤ (2 * t * 100 + t) / (2 * t) := Nat.div_le_div_right h1
    _ = 100 := by rw [h2, h3]

/-- The code branch structure and the specification wording agree for all
pairs of counts. -/
theorem sentimentFromCounts_eq_spec (p n : Nat) :
    sentimentFromCounts p n = sentimentSpecFromCounts p n := by
  unfold sentimentFromCounts sentimentSpecFromCounts
  rcases Nat.lt_trichotomy p n with h | h | h
  · have h0 : ¬ p + n = 0 := by omega
    have h1 : ¬ p > n := by omega
    have h2 : n > p := h
    have h3 : ¬ ((p = 0 ∧ n = 0) ∨ p = n) := by omega
    rw [if_neg h0, if_neg h1, if_pos h2, if_neg h3, if_neg h1,
      Nat.max_eq_right h.le, Nat.min_eq_left h.le,
      Nat.max_comm 60 (jsRound (100 * n) (n + p)), Nat.add_comm n p]
  · subst h
    by_cases hz : p + p = 0
    · rw [if_pos hz, if_pos (Or.inr rfl)]
    · have hgt : ¬ p > p := by omega
      rw [if_neg hz, if_neg hgt, if_neg hgt, if_pos (Or.inr rfl)]
  · have h0 : ¬ p + n = 0 := by omega
    have h2 : p > n := h
    have h3 : ¬ ((p = 0 ∧ n = 0) ∨ p = n) := by omega
    rw [if_neg h0, if_pos h2, if_neg h3, if_pos h2,
      Nat.max_eq_left h.le, Nat.min_eq_right h.le,
      Nat.max_comm 60 (jsRound (100 * p) (p + n))]

/-- C1: for every input text the local heuristic analyzeSentiment returns
NEUTRAL with confidence 50 when the positive and negative keyword counts are
both zero or equal, and otherwise the majority label with confidence
max of 60 and round of 100 times majority over majority plus minority, the
counts being taken over the lowercased non-word-split tokens matched against
the fixed twenty-word lists — stated as agreement with the definition written
from the specification wording over those same counts. -/
theorem analyzeSentiment_eq_spec (text : String) :
    analyzeSentiment text = analyzeSentimentSpec text :=
  sentimentFromCounts_eq_spec (posScore text) (negScore text)

/-- Every result of the count classifier has confidence between 50 and 100
and one of the three labels. -/
theorem sentimentFromCounts_range (p n : Nat) :
    50 ≤ (sentimentFromCounts p n).confidence ∧
    (sentimentFromCounts p n).confidence ≤ 100 ∧
    ((sentimentFromCounts p n).label = "POSITIVE" ∨
     (sentimentFromCounts p n).label = "NEGATIVE" ∨
     (sentimentFromCounts p n).label = "NEUTRAL") := by
  unfold sentimentFromCounts
  by_cases hz : p + n = 0
  · rw [if_pos hz]
    exact ⟨by decide, by decide, Or.inr (Or.inr rfl)⟩
  · rw [if_neg hz]
    by_cases hp : p > n
    · rw [if_pos hp]
      refine ⟨?_, ?_, Or.inl rfl⟩
      · show 50 ≤ max (jsRound (100 * p) (p + n)) 60
        exact le_trans (by omega) (le_max_right _ _)
      · show max (jsRound (100 * p) (p + n)) 60 ≤ 100
        exact max_le (jsRound_le_100 p (p + n) (by omega) (by omega))
          (by omega)
    · rw [if_neg hp]
      by_cases hn : n > p
      · rw [if_pos hn]
        refine ⟨?_, ?_, Or.inr (Or.inl rfl)⟩
        · show 50 ≤ max (jsRound (100 * n) (p + n)) 60
          exact le_trans (by omega) (le_max_right _ _)
        · show max (jsRound (100 * n) (p + n)) 60 ≤ 100
          exact max_le (jsRound_le_100 n (p + n) (by omega) (by omega))
            (by omega)
      · rw [if_neg hn]
        exact ⟨by decide, by decide, Or.inr (Or.inr rfl)⟩

/-- C4: for every non-empty input text the local heuristic returns a
confidence in the interval from 50 to 100 and a label among POSITIVE,
NEGATIVE and NEUTRAL. -/
theorem analyzeSentiment_confidence_range (text : String) (h : text ≠ "") :
    50 ≤ (analyzeSentiment text).confidence ∧
    (analyzeSentiment text).confidence ≤ 100 ∧
    ((analyzeSentiment text).label = "POSITIVE" ∨
     (analyzeSentiment text).label = "NEGATIVE" ∨
     (analyzeSentiment text).label = "NEUTRAL") :=
  sentimentFromCounts_range (posScore text) (negScore text)

/-- Witness for C4 at a concrete non-empty text. -/
theorem analyzeSentiment_confidence_range_witness :
    50 ≤ (analyzeSentiment ("hello")).confidence ∧
    (analyzeSentiment ("hello")).confidence ≤ 100 ∧
    ((analyzeSentiment ("hello")).label = "POSITIVE" ∨
     (analyzeSentiment ("hello")).label = "NEGATIVE" ∨
     (analyzeSentiment ("hello")).label = "NEUTRAL") :=
  analyzeSentiment_confidence_range ("hello") (by decide)

/-- C9: the text consisting of one period is non-empty after trimming, so
analyzeText passes its emptiness check, yet its sentence count is zero, so the
division producing averageWordsPerSentence has a zero divisor and the result
is not a finite number (modelled as `none`). -/
theorem analyzeText_zero_sentences :
    trimChars (".").data ≠ [] ∧
    ∃ r, analyzeText (".") = Except.ok r ∧
      r.sentenceCount = 0 ∧ r.averageWordsPerSentence = none := by
  refine ⟨by decide, ⟨1, 1, 1, 0, 1, none, ⟨"NEUTRAL", 50,
    "Rule-based Analysis"⟩⟩, ?_, rfl, rfl⟩
  decide

/-- A filter is empty exactly when no element passes it. -/
theorem filter_nil_iff {α : Type} (p : α → Bool) (l : List α) :
    l.filter p = [] ↔ ∀ x ∈ l, p x = false := by
  induction l with
  | nil => simp
  | cons a t ih => cases h : p a <;> simp [List.filter_cons, h, ih]

/-- Blankness is emptiness of the trim. -/
theorem isBlank_iff (l : List Char) : isBlank l = true ↔ trimChars l = [] := by
  cases h : trimChars l <;> simp [isBlank, h]

/-- The filtered line list is empty exactly when every raw line is blank. -/
theorem filteredLines_nil_iff (s : String) :
    filteredLines s = [] ↔
      ∀ l ∈ splitOnChar '\n' s.data, trimChars l = [] := by
  unfold filteredLines
  rw [filter_nil_iff]
  refine forall_congr' (fun l => forall_congr' (fun _ => ?_))
  cases h : trimChars l <;> simp [isBlank, h]

/-- parseCSV on a file with no non-blank line. -/
theorem parseCSV_nil (s : String) (hm : filteredLines s = []) :
    parseCSV s = Except.error ("CSV file is empty") := by
  unfold parseCSV
  rw [hm]

/-- parseCSV on a file with exactly one non-blank line. -/
theorem parseCSV_single (s : String) (l : List Char)
    (hm : filteredLines s = [l]) :
    parseCSV s =
      Except.ok ⟨["text"], [String.mk (trimChars l)], 1, false, none⟩ := by
  unfold parseCSV
  rw [hm]

/-- parseCSV on a file with at least two non-blank lines. -/
theorem parseCSV_multi (s : String) (a b : List Char) (t : List (List Char))
    (hm : filteredLines s = a :: b :: t) :
    parseCSV s = Except.ok
      ⟨(csvHeadersOf a).map String.mk,
       (extractTexts (csvSelIdxOf a) (csvDataOf a b t)).map String.mk,
       (extractTexts (csvSelIdxOf a) (csvDataOf a b t)).length,
       hasHeaderIndicatorsIn a,
       match findTextColumn (csvHeadersOf a) with
       | none => some ("No text column found, using first column as text")
       | some _ => none⟩ := by
  unfold parseCSV
  rw [hm]

/-- C5: on the three-line input consisting of a header keyword line followed
by apple and banana, parseCSV detects headers, extracts both data cells and
reports two total rows. -/
theorem parseCSV_header_example :
    parseCSV ("text\napple\nbanana") =
      Except.ok ⟨["text"], ["apple", "banana"], 2, true, none⟩ := by
  decide

/-- C2 counterexample: on a header line followed by one data row whose first
cell is empty, parseCSV returns successfully with a zero-length texts list,
so a returned texts list can be empty without the empty-file error. -/
theorem parseCSV_empty_texts_cex :
    ∃ r, parseCSV ("text\n,") = Except.ok r ∧ r.texts = [] :=
  ⟨⟨["text"], [], 0, true, none⟩, by decide, rfl⟩

/-- C2 amended: the empty-file error is raised exactly when the input has no
non-blank line (in particular on the empty string and whitespace-only
content), and it is the only error parseCSV ever raises; however a returned
texts list may still have length zero. -/
theorem parseCSV_empty_error_iff (s : String) :
    (parseCSV s = Except.error ("CSV file is empty") ↔
      ∀ l ∈ splitOnChar '\n' s.data, trimChars l = []) ∧
    (∀ e, parseCSV s = Except.error e → e = "CSV file is empty") := by
  rcases hm : filteredLines s with _ | ⟨a, _ | ⟨b, t⟩⟩
  · refine ⟨⟨fun _ => (filteredLines_nil_iff s).mp hm,
      fun _ => parseCSV_nil s hm⟩, fun e he => ?_⟩
    rw [parseCSV_nil s hm] at he
    exact (Except.error.inj he).symm
  · have hp := parseCSV_single s a hm
    refine ⟨⟨fun hc => ?_, fun hall => ?_⟩, fun e he => ?_⟩
    · rw [hp] at hc
      exact absurd hc (by simp)
    · have h0 : filteredLines s = [] := (filteredLines_nil_iff s).mpr hall
      rw [h0] at hm
      exact absurd hm (by simp)
    · rw [hp] at he
      exact absurd he (by simp)
  · have hp := parseCSV_multi s a b t hm
    refine ⟨⟨fun hc => ?_, fun hall => ?_⟩, fun e he => ?_⟩
    · rw [hp] at hc
      exact absurd hc (by simp)
    · have h0 : filteredLines s = [] := (filteredLines_nil_iff s).mpr hall
      rw [h0] at hm
      exact absurd hm (by simp)
    · rw [hp] at he
      exact absurd he (by simp)

/-- Witness for the amended C2 at the empty input. -/
theorem parseCSV_empty_error_iff_witness :
    parseCSV ("") = Except.error ("CSV file is empty") :=
  (parseCSV_empty_error_iff ("")).1.mpr (by decide)

/-- Indexing a map commutes with the map. -/
theorem listNth_map {α β : Type} (f : α → β) (l : List α) (n : Nat) :
    listNth (l.map f) n = (listNth l n).map f := by
  induction l generalizing n with
  | nil => rfl
  | cons a t ih => cases n with
    | zero => rfl
    | succ m => exact ih m

/-- Indexing past the length gives none. -/
theorem listNth_len_le {α : Type} (l : List α) (n : Nat)
    (h : l.length ≤ n) : listNth l n = none := by
  induction l generalizing n with
  | nil => rfl
  | cons a t ih => cases n with
    | zero => simp at h
    | succ m => exact ih m (by simpa using h)

/-- No double quote survives the quote stripping. -/
theorem stripQuotes_no_quote (l : List Char) :
    ('"' : Char) ∉ stripQuotes l := by
  induction l with
  | nil => simp [stripQuotes]
  | cons a t ih =>
    unfold stripQuotes
    split_ifs with hq
    · exact ih
    · intro hmem
      rcases List.mem_cons.mp hmem with h | h
      · exact hq h.symm
      · exact ih h

/-- A produced row cell is non-empty and is a cleaned cell, hence free of
double quotes. -/
theorem rowCell_some {idx : Nat} {line v : List Char}
    (h : rowCell idx line = some v) :
    v ≠ [] ∧ ('"' : Char) ∉ v := by
  unfold rowCell at h
  split at h
  · exact absurd h (by simp)
  · rcases hm : listNth ((splitOnChar ',' line).map cleanCell) idx with _ | w
    · rw [hm] at h
      exact absurd h (by simp)
    · rw [hm] at h
      have h2 : (if w = [] then none else some w) = some v := h
      by_cases hw : w = []
      · rw [if_pos hw] at h2
        exact absurd h2 (by simp)
      · rw [if_neg hw] at h2
        have hv : w = v := Option.some.inj h2
        subst hv
        refine ⟨hw, ?_⟩
        rw [listNth_map] at hm
        rcases Option.map_eq_some'.mp hm with ⟨cell, _, hcell⟩
        rw [← hcell]
        exact stripQuotes_no_quote (trimChars cell)

/-- Elements of the extracted texts are non-empty and quote-free. -/
theorem mem_extractTexts {idx : Nat} {dls : List (List Char)}
    {v : List Char} (h : v ∈ extractTexts idx dls) :
    v ≠ [] ∧ ('"' : Char) ∉ v := by
  unfold extractTexts at h
  rcases List.mem_filterMap.mp h with ⟨line, _, hsome⟩
  exact rowCell_some hsome

/-- A String built from a non-empty character list is not the empty string. -/
theorem mk_ne_empty (l : List Char) (h : l ≠ []) : String.mk l ≠ "" :=
  fun hc => h (congrArg String.data hc)

/-- C10 counterexample: on the single-line input of a quoted word, parseCSV
returns that line trimmed but with its double quotes kept, so a returned
text can contain a double-quote character. -/
theorem parseCSV_quote_cex :
    ∃ r t, parseCSV ("\"hi\"") = Except.ok r ∧ t ∈ r.texts ∧
      ('"' : Char) ∈ t.data :=
  ⟨⟨["text"], ["\"hi\""], 1, false, none⟩, "\"hi\"", by decide, by decide,
    by decide⟩

/-- C10 amended: every element of a returned texts list is a non-empty
string, and when the input has at least two non-blank lines (so the cell
cleaning path runs) every element is also free of double quotes; in the
single-line path quotes may survive. -/
theorem parseCSV_texts_invariant (s : String) (r : CsvBatch)
    (h : parseCSV s = Except.ok r) :
    (∀ t ∈ r.texts, t ≠ "") ∧
    (∀ firstLine l2 rest, filteredLines s = firstLine :: l2 :: rest →
      ∀ t ∈ r.texts, ('"' : Char) ∉ t.data) := by
  rcases hm : filteredLines s with _ | ⟨a, _ | ⟨b, t⟩⟩
  · rw [parseCSV_nil s hm] at h
    exact absurd h (by simp)
  · rw [parseCSV_single s a hm] at h
    have hr : (⟨["text"], [String.mk (trimChars a)], 1, false, none⟩ :
        CsvBatch) = r := Except.ok.inj h
    subst hr
    have hblank : (!(isBlank a)) = true := by
      have h2 : a ∈ filteredLines s := by
        rw [hm]
        exact List.mem_singleton.mpr rfl
      unfold filteredLines at h2
      simpa using (List.mem_filter.mp h2).2
    have htrim : trimChars a ≠ [] := by
      intro hc
      rw [(isBlank_iff a).mpr hc] at hblank
      simp at hblank
    constructor
    · intro u hu
      rcases List.mem_singleton.mp hu with rfl
      exact mk_ne_empty (trimChars a) htrim
    · intro firstLine l2 rest heq
      exact absurd heq (by simp)
  · rw [parseCSV_multi s a b t hm] at h
    have hr : (⟨(csvHeadersOf a).map String.mk,
        (extractTexts (csvSelIdxOf a) (csvDataOf a b t)).map String.mk,
        (extractTexts (csvSelIdxOf a) (csvDataOf a b t)).length,
        hasHeaderIndicatorsIn a,
        match findTextColumn (csvHeadersOf a) with
        | none => some ("No text column found, using first column as text")
        | some _ => none⟩ : CsvBatch) = r := Except.ok.inj h
    subst hr
    constructor
    · intro u hu
      rcases List.mem_map.mp hu with ⟨v, hv, rfl⟩
      exact mk_ne_empty v (mem_extractTexts hv).1
    · intro firstLine l2 rest _ u hu
      rcases List.mem_map.mp hu with ⟨v, hv, rfl⟩
      exact (mem_extractTexts hv).2

/-- Witness for the amended C10 at a concrete parsed file. -/
theorem parseCSV_texts_invariant_witness :
    (∀ u ∈ (⟨["text"], ["apple", "banana"], 2, true, none⟩ :
      CsvBatch).texts, u ≠ "") ∧
    (∀ firstLine l2 rest,
      filteredLines ("text\napple\nbanana") = firstLine :: l2 :: rest →
      ∀ u ∈ (⟨["text"], ["apple", "banana"], 2, true, none⟩ :
        CsvBatch).texts, ('"' : Char) ∉ u.data) :=
  parseCSV_texts_invariant ("text\napple\nbanana")
    ⟨["text"], ["apple", "banana"], 2, true, none⟩ (by decide)

/-- Extraction distributes over appending of data lines. -/
theorem extractTexts_append (idx : Nat) (a b : List (List Char)) :
    extractTexts idx (a ++ b) = extractTexts idx a ++ extractTexts idx b := by
  unfold extractTexts
  exact List.filterMap_append a b (rowCell idx)

/-- C6: in the multi-line path, a data row with fewer comma-split cells than
the selected text column index, or whose cleaned cell at that index is
empty, contributes no element to the returned texts: parseCSV still succeeds
and its texts are exactly those of the remaining rows. -/
theorem parseCSV_skips_bad_rows (csv : String) (firstLine l2 : List Char)
    (rest : List (List Char))
    (hl : filteredLines csv = firstLine :: l2 :: rest)
    (line : List Char) (pre post : List (List Char))
    (hd : csvDataOf firstLine l2 rest = pre ++ line :: post)
    (hskip : (splitOnChar ',' line).length < csvSelIdxOf firstLine ∨
      listNth ((splitOnChar ',' line).map cleanCell)
        (csvSelIdxOf firstLine) = some []) :
    ∃ r, parseCSV csv = Except.ok r ∧
      r.texts =
        (extractTexts (csvSelIdxOf firstLine) (pre ++ post)).map
          String.mk := by
  have hnone : rowCell (csvSelIdxOf firstLine) line = none := by
    unfold rowCell
    rcases hskip with hlen | hsome
    · split
      · rfl
      · rw [listNth_len_le _ _ (by rw [List.length_map]; omega)]
    · split
      · rfl
      · rw [hsome]
        rfl
  refine ⟨_, parseCSV_multi csv firstLine l2 rest hl, ?_⟩
  show (extractTexts (csvSelIdxOf firstLine)
      (csvDataOf firstLine l2 rest)).map String.mk = _
  rw [hd, extractTexts_append, extractTexts_append]
  unfold extractTexts
  rw [List.filterMap_cons_none hnone]

/-- Witness for C6: the row with an empty first cell is skipped while the
rows around it are kept. -/
theorem parseCSV_skips_bad_rows_witness :
    ∃ r, parseCSV ("text\napple,1\n,2\nbanana,3") = Except.ok r ∧
      r.texts =
        (extractTexts (csvSelIdxOf ("text").data)
          ([("apple,1").data] ++ [("banana,3").data])).map String.mk :=
  parseCSV_skips_bad_rows ("text\napple,1\n,2\nbanana,3") ("text").data
    ("apple,1").data [(",2").data, ("banana,3").data] (by decide)
    (",2").data [("apple,1").data] [("banana,3").data] (by decide)
    (Or.inr (by decide))

/-- When no header name matches exactly, the column search fails. -/
theorem findTextColumn_eq_none {hs : List (List Char)}
    (h : ∀ x ∈ hs, isTextHeader x = false) : findTextColumn hs = none := by
  induction hs with
  | nil => rfl
  | cons a t ih =>
    unfold findTextColumn
    rw [if_neg (by simp [h a (List.mem_cons_self a t)]),
      ih (fun x hx => h x (List.mem_cons_of_mem a hx))]
    rfl

/-- C7: on a multi-line input whose first line makes the header sniff
succeed while none of the parsed header names is an exact case-insensitive
keyword match, parseCSV falls back to column zero over the data rows and
returns a non-empty warning. -/
theorem parseCSV_warning_fallback (csv : String) (firstLine l2 : List Char)
    (rest : List (List Char))
    (hl : filteredLines csv = firstLine :: l2 :: rest)
    (hind : hasHeaderIndicatorsIn firstLine = true)
    (hnoexact : ∀ x ∈ parseHeaders firstLine, isTextHeader x = false) :
    ∃ r, parseCSV csv = Except.ok r ∧
      r.texts = (extractTexts 0 (l2 :: rest)).map String.mk ∧
      ∃ w, r.warning = some w ∧ w ≠ "" := by
  have hheaders : csvHeadersOf firstLine = parseHeaders firstLine := by
    unfold csvHeadersOf
    rw [if_pos hind]
  have hfind : findTextColumn (csvHeadersOf firstLine) = none := by
    rw [hheaders]
    exact findTextColumn_eq_none hnoexact
  have hsel : csvSelIdxOf firstLine = 0 := by
    unfold csvSelIdxOf
    rw [hfind]
    rfl
  have hdata : csvDataOf firstLine l2 rest = l2 :: rest := by
    unfold csvDataOf
    rw [if_pos hind]
  refine ⟨_, parseCSV_multi csv firstLine l2 rest hl, ?_, ?_⟩
  · show (extractTexts (csvSelIdxOf firstLine)
      (csvDataOf firstLine l2 rest)).map String.mk = _
    rw [hsel, hdata]
  · refine ⟨"No text column found, using first column as text", ?_,
      by decide⟩
    show (match findTextColumn (csvHeadersOf firstLine) with
      | none => some ("No text column found, using first column as text")
      | some _ => none) =
      some ("No text column found, using first column as text")
    rw [hfind]

/-- Witness for C7 at a concrete sniffed-but-unmatched header line. -/
theorem parseCSV_warning_fallback_witness :
    ∃ r, parseCSV ("textual,foo\na,b") = Except.ok r ∧
      r.texts = (extractTexts 0 [("a,b").data]).map String.mk ∧
      ∃ w, r.warning = some w ∧ w ≠ "" :=
  parseCSV_warning_fallback ("textual,foo\na,b") ("textual,foo").data
    ("a,b").data [] (by decide) (by decide) (by decide)

/-- The loop output has one entry per input text. -/
theorem runCsvLoop_length (api : Nat → String → Except String BatchItem)
    (model : String) (i : Nat) (l : List String) :
    (runCsvLoop api model i l).length = l.length := by
  induction l generalizing i with
  | nil => rfl
  | cons a t ih => simp [runCsvLoop, ih]

/-- The loop output at position k is the outcome of call i plus k on the
input at position k. -/
theorem runCsvLoop_nth (api : Nat → String → Except String BatchItem)
    (model : String) (l : List String) (i k : Nat) (t : String)
    (h : listNth l k = some t) :
    listNth (runCsvLoop api model i l) k =
      some (rowOutcome api model (i + k) t) := by
  induction l generalizing i k with
  | nil => exact absurd h (by simp [listNth])
  | cons a rest ih =>
    cases k with
    | zero =>
      cases Option.some.inj h
      rfl
    | succ m =>
      have h3 := ih (i + 1) m h
      have h4 : i + 1 + m = i + (m + 1) := by omega
      rw [h4] at h3
      exact h3

/-- C3 counterexample: on a loaded CSV with zero input texts the handler
returns early and produces no result list at all, rather than a list of
length zero. -/
theorem handleAnalyzeCSV_empty_cex :
    handleAnalyzeCSV (fun _ _ => Except.error ("down")) ("m")
      (some ⟨["text"], [], 0, false, none⟩) = none := rfl

/-- C3 amended: for every non-empty list of input texts the batch runner
produces a result list of the same length in input order; a failing analyze
call at position k yields the ERROR placeholder with confidence zero and the
error message at position k, while every other position carries its own
call result. -/
theorem handleAnalyzeCSV_batch_spec
    (api : Nat → String → Except String BatchItem) (model : String)
    (d : CsvBatch) (h : d.texts ≠ []) :
    ∃ rs, handleAnalyzeCSV api model (some d) = some rs ∧
      rs.length = d.texts.length ∧
      ∀ k t, listNth d.texts k = some t →
        (∀ msg, api k t = Except.error msg →
          listNth rs k = some (errorItem t msg model)) ∧
        (∀ r, api k t = Except.ok r → listNth rs k = some r) := by
  refine ⟨runCsvLoop api model 0 d.texts, ?_,
    runCsvLoop_length api model 0 d.texts, ?_⟩
  · show (if d.texts.length = 0 then none
      else some (runCsvLoop api model 0 d.texts)) =
      some (runCsvLoop api model 0 d.texts)
    rw [if_neg (fun hc => h (List.length_eq_zero.mp hc))]
  · intro k t ht
    have hk := runCsvLoop_nth api model d.texts 0 k t ht
    rw [Nat.zero_add] at hk
    constructor
    · intro msg hmsg
      rw [hk]
      unfold rowOutcome
      rw [hmsg]
    · intro r hr
      rw [hk]
      unfold rowOutcome
      rw [hr]

/-- Witness for the amended C3: three texts, the call at position one fails,
the others succeed. -/
theorem handleAnalyzeCSV_batch_spec_witness :
    ∃ rs, handleAnalyzeCSV apiW ("m") (some batchW) = some rs ∧
      rs.length = batchW.texts.length ∧
      ∀ k t, listNth batchW.texts k = some t →
        (∀ msg, apiW k t = Except.error msg →
          listNth rs k = some (errorItem t msg ("m"))) ∧
        (∀ r, apiW k t = Except.ok r → listNth rs k = some r) :=
  handleAnalyzeCSV_batch_spec apiW ("m") batchW (by decide)

/-- Escaping only duplicates quotes, so a non-quote absent character stays
absent. -/
theorem mem_escapeQuotes {c : Char} (hc : c ≠ '"') (l : List Char)
    (h : c ∉ l) : c ∉ escapeQuotes l := by
  induction l with
  | nil => simp [escapeQuotes]
  | cons a t ih =>
    unfold escapeQuotes
    split_ifs with ha
    · intro hmem
      rcases List.mem_cons.mp hmem with h1 | hmem2
      · exact hc h1
      · rcases List.mem_cons.mp hmem2 with h1 | h2
        · exact hc h1
        · exact ih (fun hx => h (List.mem_cons_of_mem a hx)) h2
    · intro hmem
      rcases List.mem_cons.mp hmem with h1 | h2
      · exact h (List.mem_cons.mpr (Or.inl h1))
      · exact ih (fun hx => h (List.mem_cons_of_mem a hx)) h2

/-- Escaping a quote-free cell is the identity. -/
theorem escapeQuotes_id {l : List Char} (h : ('"' : Char) ∉ l) :
    escapeQuotes l = l := by
  induction l with
  | nil => rfl
  | cons a t ih =>
    unfold escapeQuotes
    rw [if_neg (fun hc => h (List.mem_cons.mpr (Or.inl hc.symm))),
      ih (fun hx => h (List.mem_cons_of_mem a hx))]

/-- Quoting preserves the absence of a character other than the quote. -/
theorem mem_quoteCell {c : Char} (hc : c ≠ '"') (l : List Char)
    (h : c ∉ l) : c ∉ quoteCell l := by
  unfold quoteCell
  intro hmem
  rcases List.mem_cons.mp hmem with h1 | h2
  · exact hc h1
  · rcases List.mem_append.mp h2 with h3 | h4
    · exact mem_escapeQuotes hc l h h3
    · rcases List.mem_singleton.mp h4 with rfl
      exact hc rfl

/-- Joining preserves the absence of a character other than the separator. -/
theorem mem_joinWith {c sep : Char} (hcs : c ≠ sep)
    (parts : List (List Char)) (h : ∀ p ∈ parts, c ∉ p) :
    c ∉ joinWith sep parts := by
  induction parts with
  | nil => simp [joinWith]
  | cons a t ih =>
    cases t with
    | nil => exact h a (List.mem_cons_self a [])
    | cons b t2 =>
      unfold joinWith
      intro hmem
      rcases List.mem_append.mp hmem with h1 | h2
      · exact h a (List.mem_cons_self a (b :: t2)) h1
      · rcases List.mem_cons.mp h2 with h3 | h4
        · exact hcs h3
        · exact ih (fun p hp => h p (List.mem_cons_of_mem a hp)) h4

/-- Every character produced by the digit renderer is a digit character. -/
theorem natToDigits_digits (fuel n : Nat) :
    ∀ c ∈ natToDigits fuel n, ∃ d, d < 10 ∧ c = digitChar d := by
  induction fuel generalizing n with
  | zero => simp [natToDigits]
  | succ f ih =>
    unfold natToDigits
    split_ifs with hn
    · intro c hc
      rcases List.mem_singleton.mp hc with rfl
      exact ⟨n, hn, rfl⟩
    · intro c hc
      rcases List.mem_append.mp hc with h1 | h2
      · exact ih (n / 10) c h1
      · rcases List.mem_singleton.mp h2 with rfl
        exact ⟨n % 10, Nat.mod_lt n (by omega), rfl⟩

/-- Digit characters are neither newlines nor commas nor quotes. -/
theorem digitChar_props : ∀ d, d < 10 →
    digitChar d ≠ '\n' ∧ digitChar d ≠ ',' ∧ digitChar d ≠ '"' := by decide

/-- No newline occurs in a rendered natural number. -/
theorem newline_not_mem_natChars (n : Nat) :
    ('\n' : Char) ∉ natChars n := by
  intro hmem
  rcases natToDigits_digits (n + 1) n ('\n') hmem with ⟨d, hd, heq⟩
  exact (digitChar_props d hd).1 heq.symm

/-- No newline occurs in a rendered rational. -/
theorem newline_not_mem_ratChars (q : ℚ) :
    ('\n' : Char) ∉ ratChars q := by
  unfold ratChars
  intro hmem
  rcases List.mem_append.mp hmem with hAB | hC
  · rcases List.mem_append.mp hAB with hA | hB
    · revert hA
      split_ifs <;> simp
    · exact newline_not_mem_natChars _ hB
  · revert hC
    split_ifs with hden
    · simp
    · intro hC
      rcases List.mem_cons.mp hC with h1 | h2
      · exact absurd h1 (by decide)
      · exact newline_not_mem_natChars _ h2

/-- The generated header line contains no newline. -/
theorem headerRow_not_newline : ('\n' : Char) ∉ rowLine headerCellsCSV := by
  decide

/-- The generated header line is not blank. -/
theorem headerRow_not_blank : (!(isBlank (rowLine headerCellsCSV))) = true := by
  decide

/-- The generated header line triggers the header sniff. -/
theorem headerRow_sniff : hasHeaderIndicatorsIn (rowLine headerCellsCSV) = true := by
  decide

/-- The sniffer selects column zero of the generated header line. -/
theorem headerRow_sel : csvSelIdxOf (rowLine headerCellsCSV) = 0 := by
  decide

/-- Trimming keeps a list whose first and last characters are not
whitespace. -/
theorem trim_head_last_not_ws (x y : Char) (m : List Char)
    (hx : isWsChar x = false) (hy : isWsChar y = false) :
    trimChars (x :: (m ++ [y])) = x :: (m ++ [y]) := by
  unfold trimChars
  rw [List.dropWhile_cons, if_neg (by simp [hx])]
  have h1 : (x :: (m ++ [y])).reverse = y :: (m.reverse ++ [x]) := by
    simp [List.reverse_cons, List.reverse_append]
  rw [h1, List.dropWhile_cons, if_neg (by simp [hy]), ← h1,
    List.reverse_reverse]

/-- A list whose head is not whitespace does not trim to nothing. -/
theorem trim_ne_nil_of_head (x : Char) (xs : List Char)
    (hx : isWsChar x = false) : trimChars (x :: xs) ≠ [] := by
  intro hc
  unfold trimChars at hc
  rw [List.dropWhile_cons, if_neg (by simp [hx])] at hc
  rw [List.reverse_eq_nil_iff] at hc
  have hall := List.dropWhile_eq_nil_iff.mp hc
  have hxmem : x ∈ (x :: xs).reverse :=
    List.mem_reverse.mpr (List.mem_cons_self x xs)
  exact absurd (hall x hxmem) (by simp [hx])

/-- A line whose head is not whitespace survives the blank filter. -/
theorem not_blank_of_head (x : Char) (xs : List Char)
    (hx : isWsChar x = false) : (!(isBlank (x :: xs))) = true := by
  cases hh : trimChars (x :: xs) with
  | nil => exact absurd hh (trim_ne_nil_of_head x xs hx)
  | cons a t => simp [isBlank, hh]

/-- Splitting a separator-free list yields one field. -/
theorem splitOnCharP_no_sep {c : Char} {l : List Char} (h : c ∉ l) :
    splitOnCharP c l = (l, []) := by
  induction l with
  | nil => rfl
  | cons a t ih =>
    simp only [splitOnCharP]
    rw [if_neg (fun hc => h (List.mem_cons.mpr (Or.inl hc.symm))),
      ih (fun hx => h (List.mem_cons_of_mem a hx))]

/-- Splitting at the first separator after a separator-free field. -/
theorem splitOnCharP_append {c : Char} {l : List Char} (h : c ∉ l)
    (rest : List Char) :
    splitOnCharP c (l ++ c :: rest) =
      (l, (splitOnCharP c rest).1 :: (splitOnCharP c rest).2) := by
  induction l with
  | nil =>
    show splitOnCharP c (c :: rest) = _
    simp only [splitOnCharP]
    rw [if_pos trivial]
  | cons a t ih =>
    show splitOnCharP c (a :: (t ++ c :: rest)) = _
    simp only [splitOnCharP]
    rw [if_neg (fun hc => h (List.mem_cons.mpr (Or.inl hc.symm))),
      ih (fun hx => h (List.mem_cons_of_mem a hx))]

/-- Splitting undoes joining when no part contains the separator. -/
theorem splitOnChar_joinWith (c : Char) (a : List Char)
    (t : List (List Char)) (h : ∀ p ∈ a :: t, c ∉ p) :
    splitOnChar c (joinWith c (a :: t)) = a :: t := by
  induction t generalizing a with
  | nil =>
    show (splitOnCharP c a).1 :: (splitOnCharP c a).2 = [a]
    rw [splitOnCharP_no_sep (h a (List.mem_cons_self a []))]
  | cons b t2 ih =>
    have ha : c ∉ a := h a (List.mem_cons_self a (b :: t2))
    show (splitOnCharP c (a ++ c :: joinWith c (b :: t2))).1 ::
      (splitOnCharP c (a ++ c :: joinWith c (b :: t2))).2 = a :: b :: t2
    rw [splitOnCharP_append ha]
    have h2 := ih b (fun p hp => h p (List.mem_cons_of_mem a hp))
    unfold splitOnChar at h2
    rw [h2]

/-- A filter keeps a list all of whose elements pass it. -/
theorem filter_all {α : Type} (p : α → Bool) (l : List α)
    (h : ∀ x ∈ l, p x = true) : l.filter p = l := by
  induction l with
  | nil => rfl
  | cons a t ih =>
    rw [List.filter_cons, if_pos (h a (List.mem_cons_self a t)),
      ih (fun x hx => h x (List.mem_cons_of_mem a hx))]

/-- Quote stripping distributes over appending. -/
theorem stripQuotes_append (a b : List Char) :
    stripQuotes (a ++ b) = stripQuotes a ++ stripQuotes b := by
  induction a with
  | nil => rfl
  | cons x t ih =>
    show stripQuotes (x :: (t ++ b)) = stripQuotes (x :: t) ++ stripQuotes b
    simp only [stripQuotes]
    split_ifs with hx
    · exact ih
    · rw [List.cons_append, ih]

/-- Quote stripping is the identity on a quote-free list. -/
theorem stripQuotes_id {l : List Char} (h : ('"' : Char) ∉ l) :
    stripQuotes l = l := by
  induction l with
  | nil => rfl
  | cons a t ih =>
    unfold stripQuotes
    rw [if_neg (fun hc => h (List.mem_cons.mpr (Or.inl hc.symm))),
      ih (fun hx => h (List.mem_cons_of_mem a hx))]

/-- Extracting column zero of a generated row whose first cell is comma-free,
quote-free and non-empty recovers that cell. -/
theorem rowCell_zero_of (c0 : List Char) (restLine : List Char)
    (h0 : c0 ≠ []) (hcm : (',' : Char) ∉ c0) (hq : ('"' : Char) ∉ c0) :
    rowCell 0 (quoteCell c0 ++ ',' :: restLine) = some c0 := by
  have hcq : (',' : Char) ∉ quoteCell c0 := mem_quoteCell (by decide) c0 hcm
  have hclean : cleanCell (quoteCell c0) = c0 := by
    unfold cleanCell
    rw [show quoteCell c0 = '"' :: (c0 ++ ['"']) by
      unfold quoteCell
      rw [escapeQuotes_id hq]]
    rw [trim_head_last_not_ws ('"') ('"') c0 (by decide) (by decide)]
    rw [show stripQuotes ('"' :: (c0 ++ ['"'])) = stripQuotes (c0 ++ ['"'])
      from by
        simp only [stripQuotes]
        rw [if_pos trivial]]
    rw [stripQuotes_append, stripQuotes_id hq]
    rw [show stripQuotes ['"'] = ([] : List Char) from rfl, List.append_nil]
  have hne2 : trimChars (quoteCell c0 ++ ',' :: restLine) ≠ [] :=
    trim_ne_nil_of_head ('"')
      ((escapeQuotes c0 ++ ['"']) ++ ',' :: restLine) (by decide)
  unfold rowCell
  rw [if_neg hne2]
  have hsplit : splitOnChar ',' (quoteCell c0 ++ ',' :: restLine) =
      quoteCell c0 :: ((splitOnCharP ',' restLine).1 ::
        (splitOnCharP ',' restLine).2) := by
    unfold splitOnChar
    rw [splitOnCharP_append hcq]
  rw [hsplit]
  show (if cleanCell (quoteCell c0) = [] then none
    else some (cleanCell (quoteCell c0))) = some c0
  rw [hclean, if_neg h0]

/-- Extracting column zero of the generated row of a well-behaved result
recovers its text. -/
theorem rowCell_resultCells (r : BatchItem) (ht1 : r.text ≠ "")
    (ht2 : (',' : Char) ∉ r.text.data) (ht3 : ('"' : Char) ∉ r.text.data) :
    rowCell 0 (rowLine (resultCells r)) = some r.text.data := by
  have h0 : r.text.data ≠ [] := fun hc => ht1 (congrArg String.mk hc)
  exact rowCell_zero_of r.text.data
    (joinWith ',' (((resultCells r).drop 1).map quoteCell)) h0 ht2 ht3

/-- Extraction over generated rows of well-behaved results recovers the
texts in order. -/
theorem extractTexts_resultRows (results : List BatchItem)
    (H : ∀ r ∈ results,
      rowCell 0 (rowLine (resultCells r)) = some r.text.data) :
    extractTexts 0 (results.map (fun r => rowLine (resultCells r))) =
      results.map (fun r => r.text.data) := by
  induction results with
  | nil => rfl
  | cons a t ih =>
    show extractTexts 0 (rowLine (resultCells a) ::
      t.map (fun r => rowLine (resultCells r))) = _
    unfold extractTexts
    rw [List.filterMap_cons, H a (List.mem_cons_self a t)]
    exact congrArg (List.cons a.text.data)
      (ih (fun r hr => H r (List.mem_cons_of_mem a hr)))

/-- C8 counterexample: a result whose text contains a comma does not round
trip: the generated CSV re-parses to the fragment before the comma. -/
theorem roundTrip_comma_cex :
    ∃ batch, parseCSV (generateResultsCSV [rowCexC8]) = Except.ok batch ∧
      batch.texts = ["a"] ∧
      batch.texts ≠ [rowCexC8].map (fun r => r.text) := by
  refine ⟨⟨["Text", "Sentiment", "Confidence", "Model", "Joy Score",
    "Sadness Score", "Anger Score", "Fear Score", "Formal Score",
    "Casual Score", "Emotional Score", "Objective Score"],
    ["a"], 1, true, none⟩, ?_, rfl, by decide⟩
  decide

/-- C8 amended: for every non-empty result list whose texts are non-empty
and free of commas, double quotes and newlines, and whose sentiment and
model-name strings are free of newlines, re-parsing the generated CSV
recovers exactly the text values in their original order. -/
theorem generateResultsCSV_roundTrip (results : List BatchItem)
    (hne : results ≠ [])
    (htext : ∀ r ∈ results, r.text ≠ "" ∧ (',' : Char) ∉ r.text.data ∧
      ('"' : Char) ∉ r.text.data ∧ ('\n' : Char) ∉ r.text.data)
    (hfields : ∀ r ∈ results, ('\n' : Char) ∉ r.sentiment.data ∧
      ('\n' : Char) ∉ r.model_name.data) :
    ∃ batch, parseCSV (generateResultsCSV results) = Except.ok batch ∧
      batch.texts = results.map (fun r => r.text) := by
  have hrownl : ∀ r ∈ results, ('\n' : Char) ∉ rowLine (resultCells r) := by
    intro r hr
    unfold rowLine
    refine mem_joinWith (by decide) _ ?_
    intro p hp
    rcases List.mem_map.mp hp with ⟨cell, hcellmem, rfl⟩
    refine mem_quoteCell (by decide) cell ?_
    rcases htext r hr with ⟨-, -, -, htnl⟩
    rcases hfields r hr with ⟨hsnl, hmnl⟩
    simp only [resultCells, List.mem_cons, List.not_mem_nil, or_false]
      at hcellmem
    rcases hcellmem with rfl | rfl | rfl | rfl | rfl | rfl | rfl | rfl |
      rfl | rfl | rfl | rfl
    · exact htnl
    · split_ifs with hs
      · decide
      · exact hsnl
    · exact newline_not_mem_ratChars _
    · split_ifs with hm
      · decide
      · exact hmnl
    · exact newline_not_mem_ratChars _
    · exact newline_not_mem_ratChars _
    · exact newline_not_mem_ratChars _
    · exact newline_not_mem_ratChars _
    · exact newline_not_mem_ratChars _
    · exact newline_not_mem_ratChars _
    · exact newline_not_mem_ratChars _
    · exact newline_not_mem_ratChars _
  rcases results with _ | ⟨r1, rs⟩
  · exact absurd rfl hne
  have hlines : splitOnChar '\n' ((generateResultsCSV (r1 :: rs)).data) =
      rowLine headerCellsCSV ::
        (r1 :: rs).map (fun r => rowLine (resultCells r)) := by
    show splitOnChar '\n' (joinWith '\n' ((headerCellsCSV ::
      (r1 :: rs).map resultCells).map rowLine)) = _
    rw [show (headerCellsCSV :: (r1 :: rs).map resultCells).map rowLine =
      rowLine headerCellsCSV ::
        (r1 :: rs).map (fun r => rowLine (resultCells r)) from by
        simp [List.map_cons, List.map_map]]
    apply splitOnChar_joinWith
    intro p hp
    rcases List.mem_cons.mp hp with rfl | hp2
    · exact headerRow_not_newline
    · rcases List.mem_map.mp hp2 with ⟨r, hr, rfl⟩
      exact hrownl r hr
  have hfl : filteredLines (generateResultsCSV (r1 :: rs)) =
      rowLine headerCellsCSV :: rowLine (resultCells r1) ::
        rs.map (fun r => rowLine (resultCells r)) := by
    unfold filteredLines
    rw [hlines]
    rw [filter_all _ _ ?hkeep]
    · rfl
    case hkeep =>
      intro x hx
      rcases List.mem_cons.mp hx with rfl | hx2
      · exact headerRow_not_blank
      · rcases List.mem_map.mp hx2 with ⟨r, hr, rfl⟩
        exact not_blank_of_head ('"')
          ((escapeQuotes r.text.data ++ ['"']) ++ ',' ::
            joinWith ',' (((resultCells r).drop 1).map quoteCell))
          (by decide)
  refine ⟨_, parseCSV_multi (generateResultsCSV (r1 :: rs))
    (rowLine headerCellsCSV) (rowLine (resultCells r1))
    (rs.map (fun r => rowLine (resultCells r))) hfl, ?_⟩
  show (extractTexts (csvSelIdxOf (rowLine headerCellsCSV))
      (csvDataOf (rowLine headerCellsCSV) (rowLine (resultCells r1))
        (rs.map (fun r => rowLine (resultCells r))))).map String.mk =
    (r1 :: rs).map (fun r => r.text)
  rw [headerRow_sel]
  have hdls : csvDataOf (rowLine headerCellsCSV) (rowLine (resultCells r1))
      (rs.map (fun r => rowLine (resultCells r))) =
      (r1 :: rs).map (fun r => rowLine (resultCells r)) := by
    unfold csvDataOf
    rw [if_pos headerRow_sniff]
    rfl
  rw [hdls]
  have Hrows : ∀ r ∈ r1 :: rs,
      rowCell 0 (rowLine (resultCells r)) = some r.text.data := by
    intro r hr
    rcases htext r hr with ⟨h1, h2, h3, -⟩
    exact rowCell_resultCells r h1 h2 h3
  rw [extractTexts_resultRows (r1 :: rs) Hrows, List.map_map]
  rfl

/-- Witness for the amended C8 at a concrete well-behaved result list. -/
theorem generateResultsCSV_roundTrip_witness :
    ∃ batch, parseCSV (generateResultsCSV [rowW]) = Except.ok batch ∧
      batch.texts = [rowW].map (fun r => r.text) :=
  generateResultsCSV_roundTrip [rowW] (by decide) (by decide) (by decide)

end Texta
